import Mathlib

/-!
Shallow embedding of `GeoIpTransportMap.go` (a Postfix TCP transport-map
geo-IP relay selector).  Go strings are modelled as `List Char`, the global
`destinationMap : map[string][]string` as an insertion-ordered association
list, the DNS / geo-IP collaborators as an explicit oracle record, and each
`rand.Intn(n)` draw as an explicit natural-number parameter reduced mod `n`
(`rand.Intn` panics on a non-positive bound, and slice indexing panics out of
bounds; both panics are modelled as `Option.none`).
-/

abbrev GoStr := List Char

/-- Go `strings.Split(s, sep)` for a one-character separator: splits at every
occurrence of the separator, keeping empty fields, so a string with `n`
separators yields `n + 1` parts and the empty string yields `[""]`. -/
def splitChar (sep : Char) : GoStr → List GoStr
  | [] => [[]]
  | c :: rest =>
    if c = sep then [] :: splitChar sep rest
    else
      match splitChar sep rest with
      | [] => [[c]]
      | h :: t => (c :: h) :: t

/-- Go `strings.ToUpper` on the country tokens in play (ASCII case map). -/
def goToUpper (s : GoStr) : GoStr := s.map Char.toUpper

/-- The accumulated `destinationMap`: country keys with their appended
targets, in insertion order. -/
abbrev Table := List (GoStr × GoStr)

/-- `destinationMap[country]`: all targets appended under a key, in order
(the empty list when the key is absent, like a nil slice). -/
def tableGet (tbl : Table) (k : GoStr) : List GoStr :=
  (tbl.filter (fun p => p.1 == k)).map (fun p => p.2)

/-- The `_, ok := destinationMap[k]` membership test. -/
def tableHas (tbl : Table) (k : GoStr) : Bool :=
  tbl.any (fun p => p.1 == k)

/-- The configuration errors `argsHandler` can return. -/
inductive ConfigError where
  | emptyMapping
  | malformedMapping
  | invalidCountry
  | invalidTarget
  | defaultNotMapped
deriving DecidableEq

/-- One iteration of the directive loop in `argsHandler`: split the directive
on `:` (every occurrence), require exactly two parts, upper-case the country
and require length 2, require a non-empty target. -/
def parseDirective (v : GoStr) : Except ConfigError (GoStr × GoStr) :=
  match splitChar ':' v with
  | [c0, t] =>
    let country := goToUpper c0
    if country.length = 2 then
      if t.length < 1 then Except.error ConfigError.invalidTarget
      else Except.ok (country, t)
    else Except.error ConfigError.invalidCountry
  | _ => Except.error ConfigError.malformedMapping

/-- The directive loop of `argsHandler`: parse each directive in order and
append `(country, target)` to the table, stopping at the first error. -/
def buildTable : List GoStr → Table → Except ConfigError Table
  | [], tbl => Except.ok tbl
  | v :: rest, tbl =>
    match parseDirective v with
    | Except.error e => Except.error e
    | Except.ok ct => buildTable rest (tbl ++ [ct])

/-- `argsHandler`: reject an empty mapping, build the table from the
directives, upper-case the default target and require it to be a key of the
table; on success return the table and the normalised default. -/
def argsHandler (mapping : List GoStr) (dflt : GoStr) :
    Except ConfigError (Table × GoStr) :=
  if mapping.length < 1 then Except.error ConfigError.emptyMapping
  else
    match buildTable mapping [] with
    | Except.error e => Except.error e
    | Except.ok tbl =>
      let d := goToUpper dflt
      if tableHas tbl d then Except.ok (tbl, d)
      else Except.error ConfigError.defaultNotMapped

/-- `main` after argument handling: `log.Fatalf` exits the process on an
`argsHandler` error, so the TCP listener is opened exactly when the handler
succeeded. -/
def listenerStarts (mapping : List GoStr) (dflt : GoStr) : Bool :=
  match argsHandler mapping dflt with
  | Except.ok _ => true
  | Except.error _ => false

/-- `rand.Intn n` with raw draw `r`: a value in `[0, n)`, modelled as
`r % n`; `Intn` panics when `n` is not positive (`none`). -/
def intn (n r : Nat) : Option Nat :=
  if n = 0 then none else some (r % n)

/-- Line 253 of the source:
`destinationMap[defaultTarget][rand.Intn(len(defaultTarget))]` — the random
bound is the length of the default country STRING, not of its target list;
an out-of-range index is a panic (`none`). -/
def fallbackPick (tbl : Table) (dflt : GoStr) (r0 : Nat) : Option GoStr :=
  match intn dflt.length r0 with
  | none => none
  | some i => (tableGet tbl dflt).get? i

/-- `getEmailDomain`: split on `@`, require exactly two parts (emptiness of
the parts is not inspected), return the part after the `@`. -/
def getEmailDomain (email : GoStr) : Option GoStr :=
  let splitedEmail := splitChar '@' email
  if h : splitedEmail.length = 2 then
    some (splitedEmail.get ⟨1, by omega⟩)
  else none

/-- The external collaborators consulted by `getResult`: `getMx` (MX list or
error), `getIp` (DNS resolution plus the random pick among addresses,
collapsed to the resulting IP or error) and `getCountryByIp`.  For the
latter, `none` models only the `err != nil` path of `db.Country`; a
database miss is NOT an error — `db.Country` then returns a zero record
with a nil error, so `getCountryByIp` succeeds with the empty `IsoCode`,
modelled as `some []`. -/
structure World where
  mxLookup : GoStr → Option (List GoStr)
  ipLookup : GoStr → Option Nat
  geoLookup : Nat → Option GoStr

/-- The MX loop of `getResult` (lines 265-281): on an IP-resolution error
`continue`; on a country-lookup error `continue`; otherwise consult the table
(overwriting the destination by a random pick from the matched country's list
when the key is present) and `break`. -/
def mxLoop (tbl : Table) (w : World) (r1 : Nat) (destination : GoStr) :
    List GoStr → Option GoStr
  | [] => some destination
  | mx :: rest =>
    match w.ipLookup mx with
    | none => mxLoop tbl w r1 destination rest
    | some ip =>
      match w.geoLookup ip with
      | none => mxLoop tbl w r1 destination rest
      | some country =>
        if tableHas tbl country then
          match intn (tableGet tbl country).length r1 with
          | none => none
          | some i =>
            match (tableGet tbl country).get? i with
            | none => none
            | some d => some d
        else some destination

/-- `getResult`: compute the fallback destination first (which may panic,
`none`), then degrade to it on a malformed email or an MX lookup error,
otherwise run the MX loop. -/
def getResult (tbl : Table) (dflt : GoStr) (w : World) (r0 r1 : Nat)
    (email : GoStr) : Option GoStr :=
  match fallbackPick tbl dflt r0 with
  | none => none
  | some destination =>
    match getEmailDomain email with
    | none => some destination
    | some domain =>
      match w.mxLookup domain with
      | none => some destination
      | some mxs => mxLoop tbl w r1 destination mxs

/-- `genPostfixResponse`: the wire-protocol answer line. -/
def genPostfixResponse (destination : GoStr) : GoStr :=
  ("200 relay:[".data) ++ destination ++ ("]\n".data)

/-- `bufio.Reader.ReadBytes('\n')` on the remaining stream: the bytes up to
and including the first newline, or an error (`none`, covering EOF) when no
newline is present. -/
def readBytesNewline : GoStr → Option GoStr
  | [] => none
  | c :: rest =>
    if c = '\n' then some [c]
    else (readBytesNewline rest).map (fun d => c :: d)

/-- One iteration of `handleConnection`'s loop: read a line, strip the final
byte (`data[:length-1]`), resolve it and write back the response; `none` when
the read fails (connection closed, no response) or the resolver panics. -/
def handleLine (tbl : Table) (dflt : GoStr) (w : World) (r0 r1 : Nat)
    (stream : GoStr) : Option GoStr :=
  match readBytesNewline stream with
  | none => none
  | some data =>
    match getResult tbl dflt w r0 r1 data.dropLast with
    | none => none
    | some result => some (genPostfixResponse result)

/-- A world in which every external lookup fails. -/
def wFail : World where
  mxLookup := fun _ => none
  ipLookup := fun _ => none
  geoLookup := fun _ => none

/-- A valid configuration whose default country has exactly one target. -/
def mSingle : List GoStr := ["US:10.0.0.1".data]

/-- The table built from `mSingle`. -/
def tblSingle : Table := [("US".data, ("10.0.0.1".data))]

/-- A valid configuration whose default country has three targets. -/
def mTriple : List GoStr :=
  ["US:10.1.1.1".data, ("US:10.1.1.2".data), ("US:10.1.1.3".data)]

/-- The table built from `mTriple`. -/
def tblTriple : Table :=
  [("US".data, ("10.1.1.1".data)), ("US".data, ("10.1.1.2".data)),
   ("US".data, ("10.1.1.3".data))]

/-- The spec's end-to-end configuration: two `US` targets and one `DE`
target, default `US`. -/
def mUSDE : List GoStr :=
  ["US:10.0.0.1".data, ("US:10.0.0.2".data), ("DE:10.0.0.3".data)]

/-- The table built from `mUSDE`. -/
def tblUSDE : Table :=
  [("US".data, ("10.0.0.1".data)), ("US".data, ("10.0.0.2".data)),
   ("DE".data, ("10.0.0.3".data))]

/-- A world where `example.com` has one MX host whose address is in `DE`. -/
def wGeoDE : World where
  mxLookup := fun d => if d = ("example.com".data) then some ["mx1.example.com".data] else none
  ipLookup := fun h => if h = ("mx1.example.com".data) then some 1 else none
  geoLookup := fun ip => if ip = 1 then some ("DE".data) else none

/-- Like `wGeoDE` but every geo-IP lookup fails. -/
def wGeoFail : World where
  mxLookup := fun d => if d = ("example.com".data) then some ["mx1.example.com".data] else none
  ipLookup := fun h => if h = ("mx1.example.com".data) then some 1 else none
  geoLookup := fun _ => none

/-- A world where `example.com` has two MX hosts: both IPs resolve, the
first host's country lookup fails, the second host's address is in `DE`. -/
def wTwoMx : World where
  mxLookup := fun d =>
    if d = ("example.com".data) then some ["mxa.example.com".data, ("mxb.example.com".data)]
    else none
  ipLookup := fun h =>
    if h = ("mxa.example.com".data) then some 1
    else if h = ("mxb.example.com".data) then some 2
    else none
  geoLookup := fun ip => if ip = 2 then some ("DE".data) else none

/-- A world where `example.com` has two MX hosts with resolvable IPs: the
geo-IP database has no record for the first host's address, so that lookup
SUCCEEDS with the empty country code (`some []`, the zero record's
`IsoCode` under a nil error), while the second host's address is in `DE`. -/
def wNotFound : World where
  mxLookup := fun d =>
    if d = ("example.com".data) then some ["mxa.example.com".data, ("mxb.example.com".data)]
    else none
  ipLookup := fun h =>
    if h = ("mxa.example.com".data) then some 1
    else if h = ("mxb.example.com".data) then some 2
    else none
  geoLookup := fun ip =>
    if ip = 1 then some []
    else if ip = 2 then some ("DE".data) else none

example : splitChar '@' ("user@example.com".data) =
    ["user".data, ("example.com".data)] := by decide

example : splitChar '@' [] = [[]] := by decide

example : parseDirective ("US:10.0.0.1".data) =
    Except.ok ("US".data, ("10.0.0.1".data)) := by rfl

example : argsHandler ["US:10.0.0.1".data] ("us".data) =
    Except.ok ([("US".data, ("10.0.0.1".data))], ("US".data)) := by rfl

example : getResult [("US".data, ("10.0.0.1".data))] ("US".data) wFail 1 0 [] =
    none := by rfl

example : getResult [("US".data, ("10.0.0.1".data))] ("US".data) wFail 0 0 [] =
    some ("10.0.0.1".data) := by rfl

/-- C1: refuted by the code — under the valid configuration
`-t US:10.0.0.1 -d US` (default country mapped, non-empty target list) the
fallback index `rand.Intn(len(defaultTarget))` draws from `[0, 2)` because
`defaultTarget` is the two-character string `US`, so the draw `1` indexes the
one-element default list out of bounds and `getResult` panics (modelled as
`none`) on every input line, here the empty line. -/
theorem c1_fallback_index_panic :
    argsHandler mSingle ("US".data) = Except.ok (tblSingle, ("US".data)) ∧
    getResult tblSingle ("US".data) wFail 1 0 [] = none :=
  ⟨rfl, rfl⟩

/-- C2: refuted by the code — with the valid configuration of three default
(`US`) targets, the fallback pick of `getResult` uses the bound
`len(defaultTarget) = 2`, so the third target of the default list is never a
possible pick, for any random draw: the selection is not uniform over the
full list `entries[defaultCountry]`. -/
theorem c2_third_default_target_unreachable :
    argsHandler mTriple ("US".data) = Except.ok (tblTriple, ("US".data)) ∧
    ∀ r0 : Nat, fallbackPick tblTriple ("US".data) r0 ≠ some ("10.1.1.3".data) := by
  refine ⟨rfl, fun r0 => ?_⟩
  have e : fallbackPick tblTriple ("US".data) r0 =
      (tableGet tblTriple ("US".data)).get? (r0 % 2) := rfl
  have h : r0 % 2 = 0 ∨ r0 % 2 = 1 := by omega
  rcases h with h | h <;> rw [e, h] <;> decide

/-- C3 counterexample: in `wTwoMx` the first MX host's IP resolves
successfully, yet the final destination is the `DE` target reachable only
through the second host — the loop did not terminate at the first host with a
resolved IP, because a failed country lookup also falls through. -/
theorem c3_counterexample :
    wTwoMx.ipLookup ("mxa.example.com".data) = some 1 ∧
    getResult tblUSDE ("US".data) wTwoMx 0 0 ("user@example.com".data) =
      some ("10.0.0.3".data) ∧
    ("10.0.0.3".data) ∉ tableGet tblUSDE ("US".data) :=
  ⟨rfl, rfl, by decide⟩

/-- C3 (amended): once a host's IP resolution AND its country lookup both
succeed, the MX iteration terminates after the table step for that host —
the remaining hosts are irrelevant — regardless of whether the country is in
the table; IP-resolution failure or country-lookup failure causes fallthrough
to the next MX host. -/
theorem c3_break_after_country_success (tbl : Table) (w : World) (r1 : Nat)
    (dst mx : GoStr) (rest : List GoStr) (ip : Nat) (c : GoStr)
    (h1 : w.ipLookup mx = some ip) (h2 : w.geoLookup ip = some c) :
    mxLoop tbl w r1 dst (mx :: rest) = mxLoop tbl w r1 dst [mx] := by
  simp only [mxLoop, h1, h2]

/-- Witness for C3's amended theorem at the second host of `wTwoMx`. -/
theorem c3_break_after_country_success_witness :
    mxLoop tblUSDE wTwoMx 0 ("10.0.0.1".data)
        ["mxb.example.com".data, ("mxa.example.com".data)] =
      mxLoop tblUSDE wTwoMx 0 ("10.0.0.1".data) ["mxb.example.com".data] :=
  c3_break_after_country_success tblUSDE wTwoMx 0 ("10.0.0.1".data)
    ("mxb.example.com".data) ["mxa.example.com".data] 2 ("DE".data) rfl rfl

/-- C4 counterexample: the input `@example.com` splits on `@` into two parts
with an empty local part; the claim predicts an immediate fallback to a
default (`US`) target, but the code proceeds to the MX lookup and returns the
`DE` target. -/
theorem c4_counterexample :
    getResult tblUSDE ("US".data) wGeoDE 0 0 ("@example.com".data) =
      some ("10.0.0.3".data) ∧
    ("10.0.0.3".data) ∉ tableGet tblUSDE ("US".data) :=
  ⟨rfl, by decide⟩

/-- C4 (amended): only the part COUNT is checked — when splitting on `@`
yields anything other than exactly two parts (no `@`, or more than one `@`),
`getResult` returns exactly the fallback pick, consulting no collaborator;
and any successful fallback pick is an element of the default country's
list.  Part non-emptiness is not checked, so `@domain` and `user@` proceed
to the MX lookup. -/
theorem c4_malformed_email_falls_back :
    (∀ (tbl : Table) (dflt : GoStr) (w : World) (r0 r1 : Nat) (email : GoStr),
      (splitChar '@' email).length ≠ 2 →
      getResult tbl dflt w r0 r1 email = fallbackPick tbl dflt r0) ∧
    (∀ (tbl : Table) (dflt : GoStr) (r0 : Nat) (d : GoStr),
      fallbackPick tbl dflt r0 = some d → d ∈ tableGet tbl dflt) := by
  constructor
  · intro tbl dflt w r0 r1 email h
    have hd : getEmailDomain email = none := by
      simp only [getEmailDomain]
      rw [dif_neg h]
    cases hf : fallbackPick tbl dflt r0 <;> simp only [getResult, hf, hd]
  · intro tbl dflt r0 d h
    rw [fallbackPick] at h
    cases hi : intn dflt.length r0 with
    | none => rw [hi] at h; cases h
    | some i => rw [hi] at h; exact List.get?_mem h

/-- Witness for C4's amended theorem: a line with no `@` yields the fallback
pick, and the concrete fallback pick is in the default list. -/
theorem c4_malformed_email_falls_back_witness :
    getResult tblUSDE ("US".data) wGeoDE 0 0 ("nodomain".data) =
      fallbackPick tblUSDE ("US".data) 0 ∧
    ("10.0.0.1".data) ∈ tableGet tblUSDE ("US".data) :=
  ⟨c4_malformed_email_falls_back.1 tblUSDE ("US".data) wGeoDE 0 0
      ("nodomain".data) (by decide),
   c4_malformed_email_falls_back.2 tblUSDE ("US".data) 0 ("10.0.0.1".data) rfl⟩

/-- C5 counterexample: the geo-IP "not found" case is a successful lookup
of the empty country code, not an error.  On the first MX host of
`wNotFound` (IP resolved, no database record) the loop consults the table
with the empty code, keeps the default and BREAKS: the full resolution
returns the default target, although continuing to the second host — as the
claim demands — would have returned the `DE` target. -/
theorem c5_counterexample :
    wNotFound.geoLookup 1 = some [] ∧
    getResult tblUSDE ("US".data) wNotFound 0 0 ("user@example.com".data) =
      some ("10.0.0.1".data) ∧
    mxLoop tblUSDE wNotFound 0 ("10.0.0.1".data) ["mxb.example.com".data] =
      some ("10.0.0.3".data) :=
  ⟨rfl, rfl, rfl⟩

/-- C5 (amended): for any MX host whose IP resolves, a geo-IP lookup ERROR
makes the loop skip that host and continue with the remaining MX hosts
unchanged; the "not found" case, however, succeeds with the empty country
code, so when the empty code is not a table key the loop keeps the current
default destination and breaks, consulting no further MX host. -/
theorem c5_geo_error_skips_notfound_breaks :
    (∀ (tbl : Table) (w : World) (r1 : Nat) (dst mx : GoStr)
      (rest : List GoStr) (ip : Nat),
      w.ipLookup mx = some ip → w.geoLookup ip = none →
      mxLoop tbl w r1 dst (mx :: rest) = mxLoop tbl w r1 dst rest) ∧
    (∀ (tbl : Table) (w : World) (r1 : Nat) (dst mx : GoStr)
      (rest : List GoStr) (ip : Nat),
      w.ipLookup mx = some ip → w.geoLookup ip = some [] →
      tableHas tbl [] = false →
      mxLoop tbl w r1 dst (mx :: rest) = some dst) := by
  constructor
  · intro tbl w r1 dst mx rest ip h1 h2
    simp only [mxLoop, h1, h2]
  · intro tbl w r1 dst mx rest ip h1 h2 h3
    simp only [mxLoop, h1, h2, h3, Bool.false_eq_true, if_false]

/-- Witness for C5's amended theorem: the error case at the first host of
`wTwoMx` and the not-found case at the first host of `wNotFound`. -/
theorem c5_geo_error_skips_notfound_breaks_witness :
    (mxLoop tblUSDE wTwoMx 0 ("10.0.0.1".data)
        ["mxa.example.com".data, ("mxb.example.com".data)] =
      mxLoop tblUSDE wTwoMx 0 ("10.0.0.1".data) ["mxb.example.com".data]) ∧
    mxLoop tblUSDE wNotFound 0 ("10.0.0.2".data)
        ["mxa.example.com".data, ("mxb.example.com".data)] =
      some ("10.0.0.2".data) :=
  ⟨c5_geo_error_skips_notfound_breaks.1 tblUSDE wTwoMx 0 ("10.0.0.1".data)
      ("mxa.example.com".data) ["mxb.example.com".data] 1 rfl rfl,
   c5_geo_error_skips_notfound_breaks.2 tblUSDE wNotFound 0 ("10.0.0.2".data)
      ("mxa.example.com".data) ["mxb.example.com".data] 1 rfl rfl rfl⟩

/-- C6 counterexample: a directive whose target itself contains `:` — the
claim predicts acceptance with target `10.0.0.1:25`, but `strings.Split`
splits on every colon, yielding three parts, and the directive is rejected
as a malformed mapping. -/
theorem c6_counterexample :
    parseDirective ("US:10.0.0.1:25".data) =
      Except.error ConfigError.malformedMapping := rfl

/-- C6 (amended): construction splits each directive on EVERY `:`; the
malformed-mapping error occurs exactly when that split does not yield exactly
two parts, so a directive whose target part contains `:` is rejected rather
than accepted (two-part directives with a bad country or empty target fail
with the other, distinct errors). -/
theorem c6_malformed_iff_not_two_parts (v : GoStr) :
    parseDirective v = Except.error ConfigError.malformedMapping ↔
    (splitChar ':' v).length ≠ 2 := by
  rcases hs : splitChar ':' v with _ | ⟨c0, rest0⟩
  · simp [parseDirective, hs]
  rcases rest0 with _ | ⟨t, rest1⟩
  · simp [parseDirective, hs]
  rcases rest1 with _ | ⟨x, r⟩
  · constructor
    · intro h
      exfalso
      revert h
      simp only [parseDirective, hs]
      split_ifs <;> simp
    · intro h
      simp at h
  · simp [parseDirective, hs]

/-- Witness for C6's amended theorem at an accepted two-part directive. -/
theorem c6_malformed_iff_not_two_parts_witness :
    (parseDirective ("US:10.0.0.1".data) =
        Except.error ConfigError.malformedMapping ↔
      (splitChar ':' ("US:10.0.0.1".data)).length ≠ 2) :=
  c6_malformed_iff_not_two_parts ("US:10.0.0.1".data)

/-- The fallback pick of the end-to-end configuration: for every draw it is
one of the two `US` targets (the random bound is `len("US") = 2`). -/
lemma fallbackPickUSDE (r0 : Nat) :
    fallbackPick tblUSDE ("US".data) r0 = some ("10.0.0.1".data) ∨
    fallbackPick tblUSDE ("US".data) r0 = some ("10.0.0.2".data) := by
  have e : fallbackPick tblUSDE ("US".data) r0 =
      (tableGet tblUSDE ("US".data)).get? (r0 % 2) := rfl
  have h : r0 % 2 = 0 ∨ r0 % 2 = 1 := by omega
  rcases h with h | h
  · left; rw [e, h]; rfl
  · right; rw [e, h]; rfl

/-- In the `wGeoDE` world the MX loop always lands on the `DE` target,
whatever the incoming destination and random draw. -/
lemma mxLoopGeoDE (r1 : Nat) (dst : GoStr) :
    mxLoop tblUSDE wGeoDE r1 dst ["mx1.example.com".data] =
      some ("10.0.0.3".data) := by
  simp only [mxLoop,
    show wGeoDE.ipLookup ("mx1.example.com".data) = some 1 from rfl,
    show wGeoDE.geoLookup 1 = some ("DE".data) from rfl]
  rw [if_pos (show tableHas tblUSDE ("DE".data) = true from rfl)]
  rw [show intn (tableGet tblUSDE ("DE".data)).length r1 = some (r1 % 1)
    from rfl]
  rw [Nat.mod_one]
  rfl

/-- In the `wGeoDE` world `getResult` returns the `DE` target whenever the
fallback pick succeeded. -/
lemma getResultGeoDE (r0 r1 : Nat) (dst : GoStr)
    (hf : fallbackPick tblUSDE ("US".data) r0 = some dst) :
    getResult tblUSDE ("US".data) wGeoDE r0 r1 ("user@example.com".data) =
      some ("10.0.0.3".data) := by
  simp only [getResult, hf,
    show getEmailDomain ("user@example.com".data) = some ("example.com".data)
      from rfl,
    show wGeoDE.mxLookup ("example.com".data) = some ["mx1.example.com".data]
      from rfl,
    mxLoopGeoDE r1 dst]

/-- In the `wGeoFail` world `getResult` keeps the fallback destination. -/
lemma getResultGeoFail (r0 r1 : Nat) (dst : GoStr)
    (hf : fallbackPick tblUSDE ("US".data) r0 = some dst) :
    getResult tblUSDE ("US".data) wGeoFail r0 r1 ("user@example.com".data) =
      some dst := by
  simp only [getResult, hf,
    show getEmailDomain ("user@example.com".data) = some ("example.com".data)
      from rfl,
    show wGeoFail.mxLookup ("example.com".data) = some ["mx1.example.com".data]
      from rfl,
    show ∀ d : GoStr,
        mxLoop tblUSDE wGeoFail r1 d ["mx1.example.com".data] = some d
      from fun _ => rfl]

/-- C7: the spec's end-to-end scenario.  With directives
`US:10.0.0.1, US:10.0.0.2, DE:10.0.0.3` and default `US`, the line
`user@example.com` whose single MX host sits in `DE` always produces the
response `200 relay:[10.0.0.3]\n`; with a failing geo-IP lookup the response
is `200 relay:[10.0.0.1]\n` or `200 relay:[10.0.0.2]\n`. -/
theorem c7_end_to_end :
    argsHandler mUSDE ("US".data) = Except.ok (tblUSDE, ("US".data)) ∧
    (∀ r0 r1 : Nat,
      (getResult tblUSDE ("US".data) wGeoDE r0 r1 ("user@example.com".data)).map
          genPostfixResponse = some ("200 relay:[10.0.0.3]\n".data)) ∧
    (∀ r0 r1 : Nat,
      (getResult tblUSDE ("US".data) wGeoFail r0 r1 ("user@example.com".data)).map
          genPostfixResponse = some ("200 relay:[10.0.0.1]\n".data) ∨
      (getResult tblUSDE ("US".data) wGeoFail r0 r1 ("user@example.com".data)).map
          genPostfixResponse = some ("200 relay:[10.0.0.2]\n".data)) := by
  refine ⟨rfl, fun r0 r1 => ?_, fun r0 r1 => ?_⟩
  · rcases fallbackPickUSDE r0 with hf | hf <;>
      rw [getResultGeoDE r0 r1 _ hf] <;> rfl
  · rcases fallbackPickUSDE r0 with hf | hf
    · left; rw [getResultGeoFail r0 r1 _ hf]; rfl
    · right; rw [getResultGeoFail r0 r1 _ hf]; rfl

/-- C8: once the non-empty directive list has parsed into a table, argument
handling fails — with exactly the default-not-mapped error — if and only if
the upper-cased default country is not a key of the accumulated table, and
the TCP listener is opened if and only if it is a key (a fatal error exits
before `net.Listen`). -/
theorem c8_default_validation (mapping : List GoStr) (dflt : GoStr)
    (tbl : Table) (hne : mapping ≠ [])
    (hb : buildTable mapping [] = Except.ok tbl) :
    (argsHandler mapping dflt = Except.error ConfigError.defaultNotMapped ↔
      tableHas tbl (goToUpper dflt) = false) ∧
    ((∃ e, argsHandler mapping dflt = Except.error e) ↔
      tableHas tbl (goToUpper dflt) = false) ∧
    (listenerStarts mapping dflt = true ↔
      tableHas tbl (goToUpper dflt) = true) := by
  have hlen : ¬ mapping.length < 1 := by
    cases mapping
    · exact absurd rfl hne
    · simp
  have ha : argsHandler mapping dflt =
      if tableHas tbl (goToUpper dflt) then Except.ok (tbl, goToUpper dflt)
      else Except.error ConfigError.defaultNotMapped := by
    simp only [argsHandler, if_neg hlen, hb]
  cases hhas : tableHas tbl (goToUpper dflt) with
  | false =>
    rw [hhas] at ha
    simp only [Bool.false_eq_true, if_false] at ha
    refine ⟨by simp [ha], ⟨fun _ => rfl, fun _ => ⟨_, ha⟩⟩, ?_⟩
    simp [listenerStarts, ha]
  | true =>
    rw [hhas] at ha
    simp only [if_true] at ha
    refine ⟨by simp [ha], ⟨?_, by simp⟩, by simp [listenerStarts, ha]⟩
    rintro ⟨e, he⟩
    rw [ha] at he
    cases he

/-- Witness for C8: default country `FR` appears in no directive of
`mSingle`, so argument handling fails and the listener never starts. -/
theorem c8_default_validation_witness :
    (argsHandler mSingle ("FR".data) = Except.error ConfigError.defaultNotMapped ↔
      tableHas tblSingle (goToUpper ("FR".data)) = false) ∧
    ((∃ e, argsHandler mSingle ("FR".data) = Except.error e) ↔
      tableHas tblSingle (goToUpper ("FR".data)) = false) ∧
    (listenerStarts mSingle ("FR".data) = true ↔
      tableHas tblSingle (goToUpper ("FR".data)) = true) :=
  c8_default_validation mSingle ("FR".data) tblSingle (by decide) rfl

/-- A successful `ReadBytes('\n')` returns exactly the stream's prefix up to
the first newline, newline included. -/
lemma readBytesNewline_eq (s : GoStr) :
    ∀ d : GoStr, readBytesNewline s = some d →
      d = s.takeWhile (fun c => c != '\n') ++ ['\n'] := by
  induction s with
  | nil => intro d h; cases h
  | cons c rest ih =>
    intro d h
    rw [readBytesNewline] at h
    by_cases hc : c = '\n'
    · subst hc
      rw [if_pos rfl] at h
      obtain rfl : ['\n'] = d := Option.some.inj h
      simp [List.takeWhile_cons]
    · rw [if_neg hc] at h
      rcases Option.map_eq_some'.mp h with ⟨d', hd', rfl⟩
      rw [ih d' hd']
      simp [List.takeWhile_cons, hc]

/-- C9: whenever the buffered line read succeeds the returned bytes are
non-empty, end in the newline delimiter, and stripping the final byte yields
exactly the line content before the newline; but the code_bug of the
fallback index means the bare-`'\n'` line under the valid single-target
configuration panics (no `200 relay` response) at random draw 1. -/
theorem c9_read_line_shape :
    (∀ s d : GoStr, readBytesNewline s = some d →
      d ≠ [] ∧ d.getLast? = some '\n' ∧
      d.dropLast = s.takeWhile (fun c => c != '\n')) ∧
    argsHandler mSingle ("US".data) = Except.ok (tblSingle, ("US".data)) ∧
    handleLine tblSingle ("US".data) wFail 1 0 ("\n".data) = none := by
  refine ⟨?_, rfl, rfl⟩
  intro s d h
  rw [readBytesNewline_eq s d h]
  refine ⟨by simp, List.getLast?_concat _, List.dropLast_concat⟩

/-- Witness for C9 at the stream `a\n`. -/
theorem c9_read_line_shape_witness :
    ("a\n".data) ≠ [] ∧ ("a\n".data).getLast? = some '\n' ∧
    ("a\n".data).dropLast = ("a\n".data).takeWhile (fun c => c != '\n') :=
  c9_read_line_shape.1 ("a\n".data) ("a\n".data) rfl

/-- A separator-free string is returned whole by `splitChar`. -/
lemma splitChar_no_sep (sep : Char) (t : GoStr) (h : sep ∉ t) :
    splitChar sep t = [t] := by
  induction t with
  | nil => rfl
  | cons c rest ih =>
    have hc : ¬ c = sep := by
      intro e
      exact h (by rw [← e]; exact List.mem_cons_self c rest)
    have ih' := ih (fun hm => h (List.mem_cons_of_mem c hm))
    simp only [splitChar, if_neg hc, ih']

/-- Splitting `c ++ sep :: t` where neither side contains the separator
yields exactly the two parts. -/
lemma splitChar_append (sep : Char) (c t : GoStr) (hc : sep ∉ c)
    (ht : sep ∉ t) : splitChar sep (c ++ sep :: t) = [c, t] := by
  induction c with
  | nil =>
    show (if sep = sep then [] :: splitChar sep t
          else match splitChar sep t with
               | [] => [[sep]]
               | h :: t' => (sep :: h) :: t') = [[], t]
    rw [if_pos rfl, splitChar_no_sep sep t ht]
  | cons x xs ih =>
    have hx : ¬ x = sep := by
      intro e
      exact hc (by rw [← e]; exact List.mem_cons_self x xs)
    have ih' := ih (fun hm => hc (List.mem_cons_of_mem x hm))
    show (if x = sep then [] :: splitChar sep (xs ++ sep :: t)
          else match splitChar sep (xs ++ sep :: t) with
               | [] => [[x]]
               | h :: t' => (x :: h) :: t') = [x :: xs, t]
    rw [if_neg hx, ih']

/-- C10: the only invariant enforced on a directive's country token is that
its upper-casing has length exactly 2 — any such token, letters or not, is
accepted and its upper-casing becomes a key of the accumulated table. -/
theorem c10_two_byte_country_accepted (c t : GoStr) (tbl : Table)
    (hc : ':' ∉ c) (ht : ':' ∉ t) (hlen : (goToUpper c).length = 2)
    (hne : t ≠ []) :
    parseDirective (c ++ ':' :: t) = Except.ok (goToUpper c, t) ∧
    buildTable [c ++ ':' :: t] tbl =
      Except.ok (tbl ++ [(goToUpper c, t)]) ∧
    tableHas (tbl ++ [(goToUpper c, t)]) (goToUpper c) = true := by
  have hlt : ¬ t.length < 1 := by
    cases t
    · exact absurd rfl hne
    · simp
  have hp : parseDirective (c ++ ':' :: t) = Except.ok (goToUpper c, t) := by
    simp only [parseDirective, splitChar_append ':' c t hc ht]
    rw [if_pos hlen, if_neg hlt]
  refine ⟨hp, ?_, ?_⟩
  · simp only [buildTable, hp]
  · simp [tableHas, List.any_append]

/-- Witness for C10: the non-alphabetic 2-byte token `12` is accepted and
becomes a table key. -/
theorem c10_two_byte_country_accepted_witness :
    parseDirective ("12".data ++ ':' :: ("relay.example".data)) =
      Except.ok (goToUpper ("12".data), ("relay.example".data)) ∧
    buildTable ["12".data ++ ':' :: ("relay.example".data)] [] =
      Except.ok ([] ++ [(goToUpper ("12".data), ("relay.example".data))]) ∧
    tableHas ([] ++ [(goToUpper ("12".data), ("relay.example".data))])
      (goToUpper ("12".data)) = true :=
  c10_two_byte_country_accepted ("12".data) ("relay.example".data) []
    (by decide) (by decide) (by decide) (by decide)
